import Mathlib

/-!
Verification of the query runner in `queries.js`.

The script connects to a MongoDB database, runs a fixed ordered sequence of
seventeen operations against one `books` collection, logs each result, and
closes the connection in a `finally` block.  We embed the documents, the
collection state, and the semantics of each driver call (filter, updateOne,
deleteOne, projection, sort, skip/limit, aggregation `$group`/`$sort`/`$limit`,
createIndex, explain) as executable Lean functions, and the try/catch/finally
control flow of `runQueries` as a trace-producing function over an environment
that says which steps fail.

Modelling conventions:
* a collection is the list of its documents in natural (storage) order;
* `updateOne`/`deleteOne` act on the first document matching the filter, and
  `modifiedCount` counts only documents whose content actually changed
  (MongoDB reports `modifiedCount 0` when the `$set` value already matches);
* the engine's string comparison (used by `$sort` on the string `_id` of the
  decade aggregation) is lexicographic on code points, embedded here as
  `lexLeChars`;
* `$group` emits one group per distinct key with engine-internal (unspecified)
  ordering; we collect distinct keys with `dedupKeys` and the pipelines that
  care about order sort afterwards, exactly as the script's `$sort` stages do;
* prices are exact rationals (the script only ever compares and assigns the
  decimal literals 15.99, 10.00, 8.00).
-/

/-- A document of the `books` collection, with the implied field shape used by
`queries.js`: title, author, genre, published_year, price, in_stock. -/
structure Book where
  title : String
  author : String
  genre : String
  published_year : Int
  price : ℚ
  in_stock : Bool
deriving DecidableEq, Repr

/-- The hard-coded parameters of operation 4 in `queries.js`:
`titleToUpdate = '1984'`. -/
def titleToUpdate : String := "1984"

/-- The hard-coded new price of operation 4 in `queries.js`: `newPrice = 15.99`,
written as the normalised rational 1599/100 so that the kernel can evaluate
price comparisons on concrete inputs; `newPrice_eq` checks it is the decimal
literal 15.99. -/
def newPrice : ℚ := mkRat 1599 100

/-- The hard-coded parameter of operation 5 in `queries.js`:
`titleToDelete = 'Animal Farm'`. -/
def titleToDelete : String := "Animal Farm"

/-- The hard-coded page size of the pagination call in `queries.js`. -/
def pageSize : Nat := 5

/-- The hard-coded page number of the pagination call in `queries.js`. -/
def pageNumber : Nat := 2

/-- Operation 1: `collection.find({ genre })` with `genre = 'Fiction'`. -/
def findByGenre (g : String) (docs : List Book) : List Book :=
  docs.filter (fun d => d.genre == g)

/-- Operation 2: `collection.find({ published_year: { $gt: year } })` with
`year = 1950`. -/
def findAfterYear (y : Int) (docs : List Book) : List Book :=
  docs.filter (fun d => y < d.published_year)

/-- Operation 3: `collection.find({ author })` with `author = 'George Orwell'`. -/
def findByAuthor (a : String) (docs : List Book) : List Book :=
  docs.filter (fun d => d.author == a)

/-- Operation 4: `collection.updateOne({ title: t }, { $set: { price: p } })`.
The first document (in natural order) whose title is `t` has its `price` field
set to `p`; the second component is the driver's `modifiedCount`, which is `1`
only when the matched document's price actually changed and `0` otherwise
(no match, or the document already had price `p`). -/
def updateOnePrice (t : String) (p : ℚ) : List Book → List Book × Nat
  | [] => ([], 0)
  | d :: rest =>
    if d.title = t then
      if d.price = p then (d :: rest, 0)
      else ({ d with price := p } :: rest, 1)
    else
      let r := updateOnePrice t p rest
      (d :: r.1, r.2)

/-- Operation 5: `collection.deleteOne({ title: t })`.  The first document (in
natural order) whose title is `t` is removed; the second component is the
driver's `deletedCount` (1 when a match was found, else 0). -/
def deleteOneByTitle (t : String) : List Book → List Book × Nat
  | [] => ([], 0)
  | d :: rest =>
    if d.title = t then (rest, 1)
    else
      let r := deleteOneByTitle t rest
      (d :: r.1, r.2)

/-- Operation 6: `collection.find({ in_stock: true, published_year: { $gt: 2010 } })`. -/
def findInStockAfter2010 (docs : List Book) : List Book :=
  docs.filter (fun d => d.in_stock && 2010 < d.published_year)

/-- The shape produced by the projection `{ title: 1, author: 1, price: 1, _id: 0 }`. -/
structure ProjectedBook where
  title : String
  author : String
  price : ℚ
deriving DecidableEq, Repr

/-- Operation 7: `collection.find({}, { projection: { title: 1, author: 1, price: 1, _id: 0 } })`. -/
def projectTitleAuthorPrice (docs : List Book) : List ProjectedBook :=
  docs.map (fun d => ⟨d.title, d.author, d.price⟩)

/-- Sort key relation for `sort({ price: 1 })`: ascending by price. -/
def priceLe (a b : Book) : Prop := a.price ≤ b.price

instance : DecidableRel priceLe := fun a b => inferInstanceAs (Decidable (a.price ≤ b.price))

/-- Sort key relation for `sort({ price: -1 })`: descending by price. -/
def priceGe (a b : Book) : Prop := b.price ≤ a.price

instance : DecidableRel priceGe := fun a b => inferInstanceAs (Decidable (b.price ≤ a.price))

/-- Operation 8: `collection.find().sort({ price: 1 })`. -/
def sortByPriceAsc (docs : List Book) : List Book :=
  List.insertionSort priceLe docs

/-- Operation 9: `collection.find().sort({ price: -1 })`. -/
def sortByPriceDesc (docs : List Book) : List Book :=
  List.insertionSort priceGe docs

/-- Operation 10: `collection.find().skip(pageSize * (pageNumber - 1)).limit(pageSize)`. -/
def paginate (size page : Nat) (docs : List Book) : List Book :=
  (docs.drop (size * (page - 1))).take size

/-- Lexicographic (code-point) comparison of character lists: the string order
the engine uses for `$sort` on a string key. -/
def lexLeChars : List Char → List Char → Bool
  | [], _ => true
  | _ :: _, [] => false
  | a :: as, b :: bs => if a < b then true else if b < a then false else lexLeChars as bs

/-- Lexicographic string comparison, applied to the underlying character lists. -/
def strLe (a b : String) : Bool := lexLeChars a.data b.data

/-- Distinct `$group` keys of a list (one group per distinct key; the emission
order of groups is engine-internal, and every pipeline in `queries.js` that
cares about order sorts afterwards). -/
def dedupKeys : List String → List String
  | [] => []
  | k :: ks =>
    let r := dedupKeys ks
    if k ∈ r then r else k :: r

/-- A `$group` stage with `{ $sum: 1 }`: one `(key, count)` pair per distinct
key, the count being the number of documents mapped to that key. -/
def groupCount (key : Book → String) (docs : List Book) : List (String × Nat) :=
  (dedupKeys (docs.map key)).map (fun k => (k, docs.countP (fun d => key d == k)))

/-- Sort relation of the `$sort: { avgPrice: -1 }` stage: descending by the
rational average. -/
def avgGe (a b : String × ℚ) : Prop := b.2 ≤ a.2

instance : DecidableRel avgGe := fun a b => inferInstanceAs (Decidable (b.2 ≤ a.2))

/-- Operation 11: average price per genre, `$group` by `$genre` with
`$avg: "$price"`, then `$sort: { avgPrice: -1 }`. -/
def avgPriceByGenre (docs : List Book) : List (String × ℚ) :=
  List.insertionSort avgGe
    ((dedupKeys (docs.map Book.genre)).map (fun g =>
      let matching := docs.filter (fun d => d.genre == g)
      (g, (matching.map Book.price).sum / matching.length)))

/-- Sort relation of the `$sort: { bookCount: -1 }` stage: descending by count. -/
def countGe (a b : String × Nat) : Prop := b.2 ≤ a.2

instance : DecidableRel countGe := fun a b => inferInstanceAs (Decidable (b.2 ≤ a.2))

/-- Operation 12: `$group` by `$author` with `bookCount: { $sum: 1 }`, then
`$sort: { bookCount: -1 }`, then `$limit: 1`. -/
def authorMostBooks (docs : List Book) : List (String × Nat) :=
  (List.insertionSort countGe (groupCount Book.author docs)).take 1

/-- The decade key of operation 13: `$concat` of
`$toString ($subtract [$published_year, $mod [$published_year, 10]])` with the
literal `"s"`.  `$mod` is MongoDB's truncated remainder, `Int.tmod`. -/
def decadeKey (y : Int) : String := toString (y - y.tmod 10) ++ "s"

/-- Sort relation of the `$sort: { _id: 1 }` stage of operation 13: ascending
by the string key, in engine (lexicographic) string order. -/
def decadeLe (a b : String × Nat) : Prop := strLe a.1 b.1 = true

instance : DecidableRel decadeLe := fun a b => inferInstanceAs (Decidable (strLe a.1 b.1 = true))

/-- Operation 13: `$group` by the decade key with `count: { $sum: 1 }`, then
`$sort: { _id: 1 }`. -/
def booksByDecade (docs : List Book) : List (String × Nat) :=
  List.insertionSort decadeLe (groupCount (fun d => decadeKey d.published_year) docs)

/-- An index specification: the list of `(field, direction)` pairs handed to
`createIndex`. -/
abbrev IndexSpec := List (String × Int)

/-- The persistent external state touched by the script: the documents of the
`books` collection, in natural order, and its set of indexes. -/
structure Collection where
  docs : List Book
  indexes : List IndexSpec
deriving DecidableEq, Repr

/-- Semantics of `createIndex`: the specification is added to the collection's
index set when it is not already present. -/
def createIndex (spec : IndexSpec) (c : Collection) : Collection :=
  if spec ∈ c.indexes then c else { c with indexes := c.indexes ++ [spec] }

/-- The seventeen operations of `runQueries`, in source order. -/
inductive Op
  | findByGenreOp
  | findAfterYearOp
  | findByAuthorOp
  | updatePriceOp
  | deleteByTitleOp
  | advancedFilterOp
  | projectionOp
  | sortAscOp
  | sortDescOp
  | paginationOp
  | avgPriceByGenreOp
  | authorMostBooksOp
  | booksByDecadeOp
  | createTitleIndexOp
  | createCompoundIndexOp
  | explainTitleOp
  | explainCompoundOp
deriving DecidableEq, Repr

/-- The logged result of one operation. -/
inductive Output
  | books : List Book → Output
  | projected : List ProjectedBook → Output
  | updateResult : Nat → Output
  | deleteResult : Nat → Output
  | groups : List (String × Nat) → Output
  | avgGroups : List (String × ℚ) → Output
  | indexCreated : Output
  | planStats : List Book → Output
deriving DecidableEq, Repr

/-- One operation of `runQueries`, as a transformation of the collection state
paired with the output it logs, with the hard-coded parameters of `queries.js`. -/
def applyOp (op : Op) (c : Collection) : Collection × Output :=
  match op with
  | .findByGenreOp => (c, .books (findByGenre "Fiction" c.docs))
  | .findAfterYearOp => (c, .books (findAfterYear 1950 c.docs))
  | .findByAuthorOp => (c, .books (findByAuthor "George Orwell" c.docs))
  | .updatePriceOp =>
    let r := updateOnePrice titleToUpdate newPrice c.docs
    ({ c with docs := r.1 }, .updateResult r.2)
  | .deleteByTitleOp =>
    let r := deleteOneByTitle titleToDelete c.docs
    ({ c with docs := r.1 }, .deleteResult r.2)
  | .advancedFilterOp => (c, .books (findInStockAfter2010 c.docs))
  | .projectionOp => (c, .projected (projectTitleAuthorPrice c.docs))
  | .sortAscOp => (c, .books (sortByPriceAsc c.docs))
  | .sortDescOp => (c, .books (sortByPriceDesc c.docs))
  | .paginationOp => (c, .books (paginate pageSize pageNumber c.docs))
  | .avgPriceByGenreOp => (c, .avgGroups (avgPriceByGenre c.docs))
  | .authorMostBooksOp => (c, .groups (authorMostBooks c.docs))
  | .booksByDecadeOp => (c, .groups (booksByDecade c.docs))
  | .createTitleIndexOp => (createIndex [("title", 1)] c, .indexCreated)
  | .createCompoundIndexOp => (createIndex [("author", 1), ("published_year", -1)] c, .indexCreated)
  | .explainTitleOp => (c, .planStats (c.docs.filter (fun d => d.title == "1984")))
  | .explainCompoundOp =>
    (c, .planStats (c.docs.filter (fun d => d.author == "George Orwell" && d.published_year == 1949)))

/-- The operations of `runQueries` in source order. -/
def opSequence : List Op :=
  [.findByGenreOp, .findAfterYearOp, .findByAuthorOp, .updatePriceOp, .deleteByTitleOp,
   .advancedFilterOp, .projectionOp, .sortAscOp, .sortDescOp, .paginationOp,
   .avgPriceByGenreOp, .authorMostBooksOp, .booksByDecadeOp,
   .createTitleIndexOp, .createCompoundIndexOp, .explainTitleOp, .explainCompoundOp]

/-- Running the full operation sequence of `runQueries` over the collection
state (outputs are logged and discarded). -/
def runAll (c : Collection) : Collection :=
  opSequence.foldl (fun s op => (applyOp op s).1) c

def fixture1984 : Book :=
  { title := "1984", author := "George Orwell", genre := "Fiction",
    published_year := 1949, price := 10, in_stock := true }

def fixtureAnimalFarm : Book :=
  { title := "Animal Farm", author := "George Orwell", genre := "Fiction",
    published_year := 1945, price := 8, in_stock := true }

def fixtureCollection : Collection := { docs := [fixture1984, fixtureAnimalFarm], indexes := [] }

def sampleDoc (n : Nat) : Book :=
  { title := toString n, author := "A", genre := "G",
    published_year := n, price := 1, in_stock := true }

def sampleTwelve : List Book := (List.range 12).map sampleDoc

/-- An observable event of one run of `runQueries`: the connect succeeding, an
operation (numbered from 0 in source order) completing, the catch block logging
the error, or the finally block closing the connection. -/
inductive Event
  | connected
  | opDone (i : Nat)
  | errorLogged
  | closed
deriving DecidableEq, Repr

/-- The number of operations in the body of `runQueries`. -/
def numOps : Nat := 17

/-- An environment for one run: whether `client.connect()` succeeds and which
operations succeed (an operation whose entry is false throws). -/
structure Env where
  connectOk : Bool
  opOk : Nat → Bool

/-- The events produced by the operations of the try block, starting at
operation `i` with `fuel` operations remaining: each succeeding operation runs
in order, and the first failing one transfers control to the catch block,
which logs the error; nothing after it executes. -/
def runOpsAux (env : Env) : Nat → Nat → List Event
  | 0, _ => []
  | fuel + 1, i =>
    if env.opOk i then Event.opDone i :: runOpsAux env fuel (i + 1)
    else [Event.errorLogged]

/-- The events of the try/catch part of `runQueries`: a failing connect skips
every operation and logs the error; otherwise the operations run in order
until the first failure. -/
def tryBlockTrace (env : Env) : List Event :=
  if env.connectOk then Event.connected :: runOpsAux env numOps 0
  else [Event.errorLogged]

/-- The full event trace of one run of `runQueries`: the try/catch events
followed by the finally block's `client.close()`. -/
def runQueriesTrace (env : Env) : List Event :=
  tryBlockTrace env ++ [Event.closed]

def envFailAt4 : Env := { connectOk := true, opOk := fun i => decide (i < 4) }

/-- The rational `newPrice` is exactly the decimal literal 15.99 of the source. -/
theorem newPrice_eq : newPrice = 15.99 := by
  norm_num [newPrice, Rat.mkRat_eq_div]

theorem updateOnePrice_length (t : String) (p : ℚ) (l : List Book) :
    (updateOnePrice t p l).1.length = l.length := by
  induction l with
  | nil => rfl
  | cons d rest ih =>
    simp only [updateOnePrice]
    by_cases h1 : d.title = t
    · by_cases h2 : d.price = p <;> simp [h1, h2]
    · simp [h1, ih]

theorem zip_self_changed (l : List Book) :
    (l.zip l).countP (fun q => q.1 != q.2) = 0 := by
  induction l with
  | nil => rfl
  | cons d rest ih => simp [List.countP_cons, ih]

theorem updateOnePrice_changedCount (t : String) (p : ℚ) (l : List Book) :
    (l.zip (updateOnePrice t p l).1).countP (fun q => q.1 != q.2) = (updateOnePrice t p l).2 := by
  induction l with
  | nil => rfl
  | cons d rest ih =>
    simp only [updateOnePrice]
    by_cases h1 : d.title = t
    · by_cases h2 : d.price = p
      · simp [h1, h2, List.countP_cons, zip_self_changed]
      · simp [h1, h2, List.countP_cons, zip_self_changed]
        intro hcon
        exact h2 (congrArg Book.price hcon)
    · simp [h1, List.countP_cons, ih]

theorem updateOnePrice_modifiedCount_le_one (t : String) (p : ℚ) (l : List Book) :
    (updateOnePrice t p l).2 ≤ 1 := by
  induction l with
  | nil => exact Nat.zero_le 1
  | cons d rest ih =>
    simp only [updateOnePrice]
    by_cases h1 : d.title = t
    · by_cases h2 : d.price = p <;> simp [h1, h2]
    · simp [h1, ih]

theorem deleteOneByTitle_sublist (t : String) (l : List Book) :
    (deleteOneByTitle t l).1.Sublist l := by
  induction l with
  | nil => exact List.Sublist.refl []
  | cons d rest ih =>
    simp only [deleteOneByTitle]
    by_cases h1 : d.title = t
    · simp [h1]
    · simpa [h1] using ih.cons₂ d

theorem deleteOneByTitle_length (t : String) (l : List Book) :
    l.length = (deleteOneByTitle t l).1.length + (deleteOneByTitle t l).2 := by
  induction l with
  | nil => rfl
  | cons d rest ih =>
    simp only [deleteOneByTitle]
    by_cases h1 : d.title = t
    · simp [h1]
    · simp [h1]; omega

theorem deleteOneByTitle_deletedCount_le_one (t : String) (l : List Book) :
    (deleteOneByTitle t l).2 ≤ 1 := by
  induction l with
  | nil => exact Nat.zero_le 1
  | cons d rest ih =>
    simp only [deleteOneByTitle]
    by_cases h1 : d.title = t
    · simp [h1]
    · simp [h1, ih]

theorem updateOnePrice_of_find? (t : String) (p : ℚ) (l : List Book) (b : Book)
    (hfind : l.find? (fun d => d.title == t) = some b) (hprice : b.price ≠ p) :
    (updateOnePrice t p l).2 = 1 ∧
    updateOnePrice t p (updateOnePrice t p l).1 = ((updateOnePrice t p l).1, 0) ∧
    (updateOnePrice t p l).1.find? (fun d => d.title == t) = some { b with price := p } := by
  induction l with
  | nil => simp at hfind
  | cons d rest ih =>
    by_cases h1 : d.title = t
    · rw [List.find?_cons_of_pos _ (by simp [h1])] at hfind
      have hdb : d = b := by injection hfind
      subst hdb
      have h2 : ¬ d.price = p := hprice
      refine ⟨?_, ?_, ?_⟩
      · simp [updateOnePrice, h1, h2]
      · simp [updateOnePrice, h1, h2]
      · simp [updateOnePrice, h1, h2, List.find?_cons_of_pos]
    · rw [List.find?_cons_of_neg _ (by simp [h1])] at hfind
      obtain ⟨ih1, ih2, ih3⟩ := ih hfind
      refine ⟨?_, ?_, ?_⟩
      · simp [updateOnePrice, h1, ih1]
      · simp [updateOnePrice, h1, ih2]
      · simp [updateOnePrice, h1, List.find?_cons_of_neg, ih3]

theorem deleteOneByTitle_of_countP_zero (t : String) (l : List Book)
    (h : l.countP (fun d => d.title == t) = 0) :
    deleteOneByTitle t l = (l, 0) := by
  induction l with
  | nil => rfl
  | cons d rest ih =>
    rw [List.countP_cons] at h
    by_cases h1 : d.title = t
    · rw [if_pos (by simp [h1])] at h
      omega
    · rw [if_neg (by simp [h1]), Nat.add_zero] at h
      simp [deleteOneByTitle, h1, ih h]

theorem deleteOneByTitle_of_countP_one (t : String) (l : List Book)
    (h : l.countP (fun d => d.title == t) = 1) :
    (deleteOneByTitle t l).2 = 1 ∧
    (deleteOneByTitle t l).1.countP (fun d => d.title == t) = 0 ∧
    l.length = (deleteOneByTitle t l).1.length + 1 := by
  induction l with
  | nil => simp at h
  | cons d rest ih =>
    rw [List.countP_cons] at h
    by_cases h1 : d.title = t
    · rw [if_pos (by simp [h1])] at h
      have hrest : rest.countP (fun d => d.title == t) = 0 := by omega
      refine ⟨by simp [deleteOneByTitle, h1], by simp [deleteOneByTitle, h1, hrest], ?_⟩
      simp [deleteOneByTitle, h1]
    · rw [if_neg (by simp [h1]), Nat.add_zero] at h
      obtain ⟨ih1, ih2, ih3⟩ := ih h
      refine ⟨by simp [deleteOneByTitle, h1, ih1], ?_, ?_⟩
      · simp [deleteOneByTitle, h1, List.countP_cons, ih2]
      · simp [deleteOneByTitle, h1]; omega

theorem updateOnePrice_shape (t : String) (p : ℚ) (l : List Book) :
    (updateOnePrice t p l).1 = l ∨
    ∃ l1 d l2,
      l = l1 ++ d :: l2 ∧
      d.title = t ∧
      (∀ e ∈ l1, e.title ≠ t) ∧
      (updateOnePrice t p l).1 =
        l1 ++ { title := d.title, author := d.author, genre := d.genre,
                published_year := d.published_year, price := p,
                in_stock := d.in_stock } :: l2 := by
  induction l with
  | nil => left; rfl
  | cons d rest ih =>
    by_cases h1 : d.title = t
    · by_cases h2 : d.price = p
      · left; simp [updateOnePrice, h1, h2]
      · right
        refine ⟨[], d, rest, by simp, h1, by simp, ?_⟩
        simp [updateOnePrice, h1, h2]
    · rcases ih with heq | ⟨l1, d0, l2, hsplit, htitle, hfront, hres⟩
      · left; simp [updateOnePrice, h1, heq]
      · right
        refine ⟨d :: l1, d0, l2, by simp [hsplit], htitle, ?_, ?_⟩
        · intro e he
          rcases List.mem_cons.mp he with rfl | hmem
          · exact h1
          · exact hfront e hmem
        · simp [updateOnePrice, h1, hres]

/-- C1: running the full operation sequence on the two-document fixture leaves
the collection with exactly one document, the one titled "1984", whose price is
15.99, and zero documents titled "Animal Farm". -/
theorem runAll_fixture_end_to_end :
    (runAll fixtureCollection).docs.length = 1 ∧
    (runAll fixtureCollection).docs.countP (fun d => d.title == "1984") = 1 ∧
    (runAll fixtureCollection).docs.countP (fun d => d.title == "Animal Farm") = 0 ∧
    (runAll fixtureCollection).docs = [{ fixture1984 with price := 15.99 }] := by
  refine ⟨by decide, by decide, by decide, ?_⟩
  rw [show (15.99 : ℚ) = newPrice from newPrice_eq.symm]
  decide

/-- C2 counterexample: on a collection containing a document titled "1984"
whose price is already 15.99, the first run of operation 4 yields
modifiedCount 0, not 1 as the claim states. -/
theorem updateOnePrice_first_run_not_one :
    ([{ fixture1984 with price := newPrice }].countP (fun d => d.title == titleToUpdate)) = 1 ∧
    (updateOnePrice titleToUpdate newPrice [{ fixture1984 with price := newPrice }]).2 = 0 := by
  decide

/-- C2 (amended): operation 4 reports success iff exactly one document was
modified, and when the first document titled "1984" does not already have price
15.99, running it twice yields modifiedCount 1 then 0, with that document's
price equal to 15.99 after each run. -/
theorem updateOnePrice_success_iff_and_idempotent (docs : List Book) (b : Book)
    (hfind : docs.find? (fun d => d.title == titleToUpdate) = some b)
    (hprice : b.price ≠ newPrice) :
    (updateOnePrice titleToUpdate newPrice docs).2 = 1 ∧
    ((updateOnePrice titleToUpdate newPrice docs).2 = 1 ↔
      (docs.zip (updateOnePrice titleToUpdate newPrice docs).1).countP
        (fun q => q.1 != q.2) = 1) ∧
    updateOnePrice titleToUpdate newPrice (updateOnePrice titleToUpdate newPrice docs).1 =
      ((updateOnePrice titleToUpdate newPrice docs).1, 0) ∧
    (updateOnePrice titleToUpdate newPrice docs).1.find? (fun d => d.title == titleToUpdate) =
      some { b with price := newPrice } := by
  obtain ⟨h1, h2, h3⟩ := updateOnePrice_of_find? titleToUpdate newPrice docs b hfind hprice
  refine ⟨h1, ?_, h2, h3⟩
  rw [updateOnePrice_changedCount]

theorem updateOnePrice_success_iff_and_idempotent_witness :
    (updateOnePrice titleToUpdate newPrice fixtureCollection.docs).2 = 1 ∧
    updateOnePrice titleToUpdate newPrice
      (updateOnePrice titleToUpdate newPrice fixtureCollection.docs).1 =
      ((updateOnePrice titleToUpdate newPrice fixtureCollection.docs).1, 0) :=
  ⟨(updateOnePrice_success_iff_and_idempotent fixtureCollection.docs fixture1984
      (by decide) (by decide)).1,
   (updateOnePrice_success_iff_and_idempotent fixtureCollection.docs fixture1984
      (by decide) (by decide)).2.2.1⟩

/-- C3 counterexample: on a collection containing two documents titled
"Animal Farm", running operation 5 twice yields deletedCount 1 on the second
run as well, not 0 as the claim states. -/
theorem deleteOneByTitle_second_run_not_zero :
    ([fixtureAnimalFarm, fixtureAnimalFarm].countP (fun d => d.title == titleToDelete)) = 2 ∧
    (deleteOneByTitle titleToDelete
      (deleteOneByTitle titleToDelete [fixtureAnimalFarm, fixtureAnimalFarm]).1).2 = 1 := by
  decide

/-- C3 (amended): operation 5 reports success iff exactly one document was
removed, and on a collection containing exactly one document titled
"Animal Farm", running it twice yields deletedCount 1 then 0. -/
theorem deleteOneByTitle_success_iff_and_idempotent (docs : List Book)
    (h : docs.countP (fun d => d.title == titleToDelete) = 1) :
    (deleteOneByTitle titleToDelete docs).2 = 1 ∧
    ((deleteOneByTitle titleToDelete docs).2 = 1 ↔
      docs.length = (deleteOneByTitle titleToDelete docs).1.length + 1) ∧
    deleteOneByTitle titleToDelete (deleteOneByTitle titleToDelete docs).1 =
      ((deleteOneByTitle titleToDelete docs).1, 0) := by
  obtain ⟨h1, h2, h3⟩ := deleteOneByTitle_of_countP_one titleToDelete docs h
  exact ⟨h1, by omega, deleteOneByTitle_of_countP_zero titleToDelete _ h2⟩

theorem deleteOneByTitle_success_iff_and_idempotent_witness :
    (deleteOneByTitle titleToDelete fixtureCollection.docs).2 = 1 ∧
    deleteOneByTitle titleToDelete (deleteOneByTitle titleToDelete fixtureCollection.docs).1 =
      ((deleteOneByTitle titleToDelete fixtureCollection.docs).1, 0) :=
  ⟨(deleteOneByTitle_success_iff_and_idempotent fixtureCollection.docs (by decide)).1,
   (deleteOneByTitle_success_iff_and_idempotent fixtureCollection.docs (by decide)).2.2⟩

/-- C9: on every collection state, including states where several documents
share the title "1984" or "Animal Farm", operation 4 modifies at most one
document and operation 5 removes at most one document. -/
theorem point_ops_affect_at_most_one (docs : List Book) :
    (updateOnePrice titleToUpdate newPrice docs).1.length = docs.length ∧
    (docs.zip (updateOnePrice titleToUpdate newPrice docs).1).countP
      (fun q => q.1 != q.2) = (updateOnePrice titleToUpdate newPrice docs).2 ∧
    (updateOnePrice titleToUpdate newPrice docs).2 ≤ 1 ∧
    (deleteOneByTitle titleToDelete docs).1.Sublist docs ∧
    docs.length = (deleteOneByTitle titleToDelete docs).1.length +
      (deleteOneByTitle titleToDelete docs).2 ∧
    (deleteOneByTitle titleToDelete docs).2 ≤ 1 :=
  ⟨updateOnePrice_length _ _ _, updateOnePrice_changedCount _ _ _,
   updateOnePrice_modifiedCount_le_one _ _ _, deleteOneByTitle_sublist _ _,
   deleteOneByTitle_length _ _, deleteOneByTitle_deletedCount_le_one _ _⟩

/-- C10: operation 4 either leaves the collection unchanged, or rewrites
exactly the first document titled "1984", keeping every document before and
after it and every field of the matched document other than price. -/
theorem updateOnePrice_only_price_of_match (docs : List Book) :
    (updateOnePrice titleToUpdate newPrice docs).1 = docs ∨
    ∃ l1 d l2,
      docs = l1 ++ d :: l2 ∧
      d.title = titleToUpdate ∧
      (∀ e ∈ l1, e.title ≠ titleToUpdate) ∧
      (updateOnePrice titleToUpdate newPrice docs).1 =
        l1 ++ { title := d.title, author := d.author, genre := d.genre,
                published_year := d.published_year, price := newPrice,
                in_stock := d.in_stock } :: l2 :=
  updateOnePrice_shape titleToUpdate newPrice docs

/-- C4: with pageSize = 5 and pageNumber = 2, the pagination call skips 5
documents and returns, in natural order with no filter or sort, exactly the
documents at zero-based offsets 5 through 9 of any 12-document collection. -/
theorem paginate_page2_of_twelve (docs : List Book) (h : docs.length = 12) :
    (paginate pageSize pageNumber docs).length = 5 ∧
    ∀ i : Nat, (paginate pageSize pageNumber docs)[i]? =
      if i < 5 then docs[5 + i]? else none := by
  constructor
  · simp [paginate, pageSize, pageNumber, h]
  · intro i
    simp only [paginate, pageSize, pageNumber]
    rw [List.getElem?_take]
    by_cases hi : i < 5
    · simp [hi, List.getElem?_drop]
    · simp [hi]

theorem paginate_page2_of_twelve_witness :
    (paginate pageSize pageNumber sampleTwelve).length = 5 ∧
    (paginate pageSize pageNumber sampleTwelve)[2]? = sampleTwelve[7]? :=
  ⟨(paginate_page2_of_twelve sampleTwelve (by decide)).1,
   by
     have h := (paginate_page2_of_twelve sampleTwelve (by decide)).2 2
     simpa using h⟩

theorem runOpsAux_count_closed (env : Env) (fuel i : Nat) :
    (runOpsAux env fuel i).count Event.closed = 0 := by
  induction fuel generalizing i with
  | zero => rfl
  | succ n ih =>
    simp only [runOpsAux]
    by_cases h : env.opOk i
    · simp [h, List.count_cons, ih]
    · simp [h, List.count_cons]

theorem runOpsAux_count_errorLogged (env : Env) (fuel i : Nat) :
    (runOpsAux env fuel i).count Event.errorLogged =
      if (List.range' i fuel).all env.opOk then 0 else 1 := by
  induction fuel generalizing i with
  | zero => rfl
  | succ n ih =>
    rw [List.range'_succ]
    simp only [runOpsAux]
    by_cases h : env.opOk i
    · simp [h, List.count_cons, ih]
    · simp [h, List.count_cons]

theorem runOpsAux_mem_opDone (env : Env) (fuel i k : Nat) :
    Event.opDone k ∈ runOpsAux env fuel i ↔
      (i ≤ k ∧ k < i + fuel ∧ ∀ j, i ≤ j → j ≤ k → env.opOk j = true) := by
  induction fuel generalizing i with
  | zero =>
    simp only [runOpsAux, List.not_mem_nil, false_iff]
    rintro ⟨h1, h2, -⟩
    omega
  | succ n ih =>
    simp only [runOpsAux]
    by_cases h : env.opOk i
    · rw [if_pos h]
      by_cases hk : k = i
      · subst hk
        simp only [List.mem_cons, Event.opDone.injEq]
        constructor
        · intro _
          exact ⟨Nat.le_refl k, by omega, fun j h1 h2 => by
            have : j = k := Nat.le_antisymm h2 h1
            subst this
            exact h⟩
        · intro _
          exact Or.inl trivial
      · simp only [List.mem_cons, Event.opDone.injEq]
        rw [ih]
        constructor
        · rintro (hik | ⟨h1, h2, h3⟩)
          · exact absurd hik hk
          · exact ⟨by omega, by omega, fun j hj1 hj2 => by
              by_cases hji : j = i
              · subst hji; exact h
              · exact h3 j (by omega) hj2⟩
        · rintro ⟨h1, h2, h3⟩
          right
          exact ⟨by omega, by omega, fun j hj1 hj2 => h3 j (by omega) hj2⟩
    · rw [if_neg h]
      simp only [List.mem_singleton]
      constructor
      · intro hcon
        cases hcon
      · rintro ⟨h1, h2, h3⟩
        exact absurd (h3 i (Nat.le_refl i) h1) (by simpa using h)

/-- C7: on every run, the connection close step runs exactly once and is the
last event on every exit path; the error (from connect or from any operation)
is logged exactly once when some step fails and never otherwise; and operation
k runs iff the connect and every operation up to k succeeded, so nothing after
the first failure executes. -/
theorem runQueriesTrace_cleanup_and_abort (env : Env) :
    (runQueriesTrace env).count Event.closed = 1 ∧
    (runQueriesTrace env).getLast? = some Event.closed ∧
    (runQueriesTrace env).count Event.errorLogged =
      (if env.connectOk && (List.range numOps).all env.opOk then 0 else 1) ∧
    ∀ k, k < numOps →
      (Event.opDone k ∈ runQueriesTrace env ↔
        (env.connectOk = true ∧ ∀ j, j ≤ k → env.opOk j = true)) := by
  refine ⟨?_, ?_, ?_, ?_⟩
  · simp only [runQueriesTrace, List.count_append, tryBlockTrace]
    by_cases h : env.connectOk
    · simp [h, List.count_cons, runOpsAux_count_closed]
    · simp [h, List.count_cons]
  · simp [runQueriesTrace]
  · simp only [runQueriesTrace, List.count_append, tryBlockTrace]
    by_cases h : env.connectOk
    · rw [if_pos h]
      simp only [List.count_cons, List.count_nil]
      rw [List.range_eq_range']
      simp [runOpsAux_count_errorLogged, h]
    · simp [h]
  · intro k hk
    simp only [runQueriesTrace, List.mem_append, tryBlockTrace]
    by_cases h : env.connectOk
    · rw [if_pos h]
      simp only [List.mem_cons, List.mem_singleton]
      rw [runOpsAux_mem_opDone]
      constructor
      · rintro ((hcon | hmem) | hcon | hcon)
        · cases hcon
        · exact ⟨h, fun j hj => hmem.2.2 j (Nat.zero_le j) hj⟩
        · cases hcon
        · cases hcon
      · rintro ⟨-, hall⟩
        exact Or.inl (Or.inr ⟨Nat.zero_le k, by omega, fun j _ hj => hall j hj⟩)
    · rw [if_neg h]
      simp only [List.mem_singleton]
      constructor
      · intro hmem
        simp at hmem
      · rintro ⟨hcon, -⟩
        exact absurd hcon (by simpa using h)

theorem runQueriesTrace_cleanup_and_abort_witness :
    (runQueriesTrace envFailAt4).count Event.closed = 1 ∧
    Event.opDone 3 ∈ runQueriesTrace envFailAt4 ∧
    Event.opDone 5 ∉ runQueriesTrace envFailAt4 :=
  ⟨(runQueriesTrace_cleanup_and_abort envFailAt4).1,
   ((runQueriesTrace_cleanup_and_abort envFailAt4).2.2.2 3 (by decide)).mpr
     ⟨rfl, fun j hj => by simp [envFailAt4]; omega⟩,
   fun hmem => by
     have h := ((runQueriesTrace_cleanup_and_abort envFailAt4).2.2.2 5 (by decide)).mp hmem
     have h4 := h.2 4 (by decide)
     simp [envFailAt4] at h4⟩

/-- C8: every operation other than the point update, the point delete and the
two index creations leaves the documents of the collection unchanged: each of
operations 1-3, 6-13, 16, 17 returns its output without altering the
collection's document list. -/
theorem read_ops_preserve_docs (c : Collection) :
    (applyOp .findByGenreOp c).1.docs = c.docs ∧
    (applyOp .findAfterYearOp c).1.docs = c.docs ∧
    (applyOp .findByAuthorOp c).1.docs = c.docs ∧
    (applyOp .advancedFilterOp c).1.docs = c.docs ∧
    (applyOp .projectionOp c).1.docs = c.docs ∧
    (applyOp .sortAscOp c).1.docs = c.docs ∧
    (applyOp .sortDescOp c).1.docs = c.docs ∧
    (applyOp .paginationOp c).1.docs = c.docs ∧
    (applyOp .avgPriceByGenreOp c).1.docs = c.docs ∧
    (applyOp .authorMostBooksOp c).1.docs = c.docs ∧
    (applyOp .booksByDecadeOp c).1.docs = c.docs ∧
    (applyOp .explainTitleOp c).1.docs = c.docs ∧
    (applyOp .explainCompoundOp c).1.docs = c.docs :=
  ⟨rfl, rfl, rfl, rfl, rfl, rfl, rfl, rfl, rfl, rfl, rfl, rfl, rfl⟩

theorem lexLeChars_total : ∀ a b : List Char, lexLeChars a b = true ∨ lexLeChars b a = true
  | [], _ => Or.inl rfl
  | _ :: _, [] => Or.inr rfl
  | a :: as, b :: bs => by
    by_cases h1 : a < b
    · left
      simp [lexLeChars, h1]
    · by_cases h2 : b < a
      · right
        simp [lexLeChars, h2]
      · have hab : a = b := le_antisymm (not_lt.mp h2) (not_lt.mp h1)
        subst hab
        rcases lexLeChars_total as bs with h | h
        · left
          simp [lexLeChars, h]
        · right
          simp [lexLeChars, h]

theorem lexLeChars_trans :
    ∀ a b c : List Char, lexLeChars a b = true → lexLeChars b c = true → lexLeChars a c = true
  | [], _, _, _, _ => rfl
  | _ :: _, [], _, h1, _ => by simp [lexLeChars] at h1
  | _ :: _, _ :: _, [], _, h2 => by simp [lexLeChars] at h2
  | a :: as, b :: bs, c :: cs, h1, h2 => by
    by_cases hab : a < b
    · by_cases hbc : b < c
      · simp [lexLeChars, lt_trans hab hbc]
      · by_cases hcb : c < b
        · rw [lexLeChars, if_neg hbc, if_pos hcb] at h2
          cases h2
        · have hbc' : b = c := le_antisymm (not_lt.mp hcb) (not_lt.mp hbc)
          subst hbc'
          simp [lexLeChars, hab]
    · by_cases hba : b < a
      · rw [lexLeChars, if_neg hab, if_pos hba] at h1
        cases h1
      · have hab' : a = b := le_antisymm (not_lt.mp hba) (not_lt.mp hab)
        subst hab'
        rw [lexLeChars, if_neg (lt_irrefl a), if_neg (lt_irrefl a)] at h1
        by_cases hac : a < c
        · simp [lexLeChars, hac]
        · by_cases hca : c < a
          · rw [lexLeChars, if_neg hac, if_pos hca] at h2
            cases h2
          · have hac' : a = c := le_antisymm (not_lt.mp hca) (not_lt.mp hac)
            subst hac'
            rw [lexLeChars, if_neg (lt_irrefl a), if_neg (lt_irrefl a)] at h2 ⊢
            exact lexLeChars_trans as bs cs h1 h2

theorem mem_dedupKeys (k : String) : ∀ l : List String, k ∈ dedupKeys l ↔ k ∈ l := by
  intro l
  induction l with
  | nil => simp [dedupKeys]
  | cons a as ih =>
    simp only [dedupKeys]
    by_cases h : a ∈ dedupKeys as
    · rw [if_pos h]
      rw [ih]
      constructor
      · exact fun hm => List.mem_cons_of_mem a hm
      · intro hm
        rcases List.mem_cons.mp hm with rfl | hm2
        · exact ih.mp h
        · exact hm2
    · rw [if_neg h]
      simp [ih]

theorem nodup_dedupKeys : ∀ l : List String, (dedupKeys l).Nodup := by
  intro l
  induction l with
  | nil => exact List.nodup_nil
  | cons a as ih =>
    simp only [dedupKeys]
    by_cases h : a ∈ dedupKeys as
    · rwa [if_pos h]
    · rw [if_neg h]
      exact List.Nodup.cons h ih

theorem groupCount_mem_counts (key : Book → String) (docs : List Book) (kc : String × Nat)
    (hmem : kc ∈ groupCount key docs) :
    kc.2 = docs.countP (fun d => key d == kc.1) := by
  simp only [groupCount, List.mem_map] at hmem
  obtain ⟨k, -, rfl⟩ := hmem
  rfl

theorem groupCount_keys (key : Book → String) (docs : List Book) :
    (groupCount key docs).map Prod.fst = dedupKeys (docs.map key) := by
  simp only [groupCount, List.map_map]
  exact List.map_id _

theorem groupCount_covers (key : Book → String) (docs : List Book) (d : Book)
    (hd : d ∈ docs) :
    ∃ kc ∈ groupCount key docs, kc.1 = key d := by
  refine ⟨(key d, docs.countP (fun e => key e == key d)), ?_, rfl⟩
  simp only [groupCount, List.mem_map]
  exact ⟨key d, (mem_dedupKeys _ _).mpr (List.mem_map_of_mem key hd), rfl⟩

/-- C5: the decade aggregation groups a document published in 1949 under
"1940s" and one published in 1950 under "1950s"; it emits one group per
distinct decade key with the number of documents of that decade as its count,
covers every document, and returns the groups sorted ascending by the key as a
string, in lexicographic order. -/
theorem booksByDecade_grouping_and_order (docs : List Book) :
    decadeKey 1949 = "1940s" ∧
    decadeKey 1950 = "1950s" ∧
    List.Sorted decadeLe (booksByDecade docs) ∧
    ((booksByDecade docs).map Prod.fst).Nodup ∧
    ((booksByDecade docs).all (fun kc =>
      kc.2 == docs.countP (fun d => decadeKey d.published_year == kc.1))) = true ∧
    (docs.all (fun d =>
      (booksByDecade docs).any (fun kc => kc.1 == decadeKey d.published_year))) = true := by
  have hperm : List.Perm (booksByDecade docs)
      (groupCount (fun d => decadeKey d.published_year) docs) :=
    List.perm_insertionSort decadeLe _
  refine ⟨by decide, by decide, ?_, ?_, ?_, ?_⟩
  · haveI : IsTotal (String × Nat) decadeLe :=
      ⟨fun a b => lexLeChars_total a.1.data b.1.data⟩
    haveI : IsTrans (String × Nat) decadeLe :=
      ⟨fun a b c h1 h2 => lexLeChars_trans a.1.data b.1.data c.1.data h1 h2⟩
    exact List.sorted_insertionSort decadeLe _
  · refine List.Nodup.perm ?_ (hperm.map Prod.fst).symm
    rw [groupCount_keys]
    exact nodup_dedupKeys _
  · rw [List.all_eq_true]
    intro kc hkc
    have hmem : kc ∈ groupCount (fun d => decadeKey d.published_year) docs :=
      hperm.mem_iff.mp hkc
    have := groupCount_mem_counts _ docs kc hmem
    simpa using this
  · rw [List.all_eq_true]
    intro d hd
    obtain ⟨kc, hkc, hkey⟩ := groupCount_covers (fun d => decadeKey d.published_year) docs d hd
    rw [List.any_eq_true]
    exact ⟨kc, hperm.mem_iff.mpr hkc, by simp [hkey]⟩

theorem countP_or_of_disjoint (p q : Book → Bool) (l : List Book)
    (h : ∀ d : Book, ¬(p d = true ∧ q d = true)) :
    l.countP (fun d => p d || q d) = l.countP p + l.countP q := by
  induction l with
  | nil => rfl
  | cons d rest ih =>
    rw [List.countP_cons, List.countP_cons, List.countP_cons, ih]
    cases hp : p d
    · cases hq : q d
      · simp [hp, hq]
      · simp [hp, hq]
        omega
    · cases hq : q d
      · simp [hp, hq]
        omega
      · exact absurd ⟨hp, hq⟩ (h d)

theorem nodup_two_mem (l : List String) (a b : String) (hnd : l.Nodup)
    (hsub : ∀ x ∈ l, x = a ∨ x = b) (ha : a ∈ l) (hb : b ∈ l) (hab : a ≠ b) :
    l = [a, b] ∨ l = [b, a] := by
  cases l with
  | nil => cases ha
  | cons x xs =>
    cases xs with
    | nil =>
      have ha' : a = x := by simpa using ha
      have hb' : b = x := by simpa using hb
      exact absurd (ha'.trans hb'.symm) hab
    | cons y ys =>
      cases ys with
      | nil =>
        rcases (by simpa using ha : a = x ∨ a = y) with rfl | rfl
        · rcases (by simpa using hb : b = a ∨ b = y) with rfl | rfl
          · exact absurd rfl hab
          · exact Or.inl rfl
        · rcases (by simpa using hb : b = x ∨ b = a) with rfl | rfl
          · exact Or.inr rfl
          · exact absurd rfl hab
      | cons z zs =>
        exfalso
        have hx : x = a ∨ x = b := hsub x (by simp)
        have hy : y = a ∨ y = b := hsub y (by simp)
        have hz : z = a ∨ z = b := hsub z (by simp)
        have hnd' : x ≠ y ∧ x ≠ z ∧ y ≠ z := by
          simp only [List.nodup_cons, List.mem_cons] at hnd
          exact ⟨fun hc => hnd.1 (Or.inl hc), fun hc => hnd.1 (Or.inr (Or.inl hc)),
                 fun hc => hnd.2.1 (Or.inl hc)⟩
        rcases hx with rfl | rfl <;> rcases hy with rfl | rfl <;> rcases hz with rfl | rfl <;>
          simp_all

/-- C6: the author aggregate groups by author, counts documents per author,
sorts by count descending and truncates to one group; on every collection with
3 documents by "Author A" and 1 by "Author B" it returns exactly
[("Author A", 3)]. -/
theorem authorMostBooks_three_one (docs : List Book)
    (hA : docs.countP (fun d => d.author == "Author A") = 3)
    (hB : docs.countP (fun d => d.author == "Author B") = 1)
    (hlen : docs.length = 4) :
    authorMostBooks docs = [("Author A", 3)] := by
  have hdisj : ∀ d : Book,
      ¬((d.author == "Author A") = true ∧ (d.author == "Author B") = true) := by
    rintro d ⟨h1, h2⟩
    simp only [beq_iff_eq] at h1 h2
    rw [h1] at h2
    exact absurd h2 (by decide)
  have hor : docs.countP (fun d => (d.author == "Author A") || (d.author == "Author B")) =
      docs.length := by
    rw [countP_or_of_disjoint _ _ _ hdisj, hA, hB, hlen]
  have hmem : ∀ d ∈ docs, d.author = "Author A" ∨ d.author = "Author B" := by
    intro d hd
    have := List.countP_eq_length.mp hor d hd
    simpa using this
  have hksub : ∀ k ∈ dedupKeys (docs.map Book.author),
      k = "Author A" ∨ k = "Author B" := by
    intro k hk
    rw [mem_dedupKeys] at hk
    obtain ⟨d, hd, rfl⟩ := List.mem_map.mp hk
    exact hmem d hd
  have hAmem : "Author A" ∈ dedupKeys (docs.map Book.author) := by
    rw [mem_dedupKeys]
    have hpos : 0 < docs.countP (fun d => d.author == "Author A") := by omega
    obtain ⟨d, hd, hpd⟩ := List.countP_pos_iff.mp hpos
    exact List.mem_map.mpr ⟨d, hd, by simpa using hpd⟩
  have hBmem : "Author B" ∈ dedupKeys (docs.map Book.author) := by
    rw [mem_dedupKeys]
    have hpos : 0 < docs.countP (fun d => d.author == "Author B") := by omega
    obtain ⟨d, hd, hpd⟩ := List.countP_pos_iff.mp hpos
    exact List.mem_map.mpr ⟨d, hd, by simpa using hpd⟩
  have hkeys := nodup_two_mem (dedupKeys (docs.map Book.author)) "Author A" "Author B"
    (nodup_dedupKeys _) hksub hAmem hBmem (by decide)
  rcases hkeys with hk2 | hk2 <;>
  · rw [authorMostBooks]
    rw [show groupCount Book.author docs =
        (dedupKeys (docs.map Book.author)).map
          (fun k => (k, docs.countP (fun d => d.author == k))) from rfl]
    rw [hk2]
    simp only [List.map_cons, List.map_nil]
    rw [hA, hB]
    decide

theorem authorMostBooks_three_one_witness :
    authorMostBooks
      [{ title := "a1", author := "Author A", genre := "G",
         published_year := 2000, price := 1, in_stock := true },
       { title := "a2", author := "Author A", genre := "G",
         published_year := 2000, price := 1, in_stock := true },
       { title := "b1", author := "Author B", genre := "G",
         published_year := 2000, price := 1, in_stock := true },
       { title := "a3", author := "Author A", genre := "G",
         published_year := 2000, price := 1, in_stock := true }] = [("Author A", 3)] :=
  authorMostBooks_three_one _ (by decide) (by decide) (by decide)
